import Mathlib

/- Formal model of the Day 19 websocket core of shuttle-cch23 (src/main.rs):
   the ping state machine (day19_task1_handle), the room registry and room
   broadcast channels (TwitterState::join), the view counter, and the chat
   session loop (day19_task2_handle).  Machine integers: the view counter is
   an AtomicUsize whose fetch_add wraps, modelled as Nat arithmetic mod 2^64.
   The serde_json decode of an inbound frame is abstracted by the InFrame
   event constructors (decode failure vs. the decoded message text); the
   serde_json serialisation of a Tweet is modelled concretely (tweetToJson). -/

/-- The usize modulus: AtomicUsize::fetch_add wraps on overflow. -/
def USIZE : Nat := 2 ^ 64

/-- Capacity of each room's channel: broadcast::channel(1_000_000)
(src/main.rs line 666).  The channel retains only the last BROADCAST_CAP
messages: when a send overflows, the oldest retained message is evicted, and
a receiver whose cursor has fallen behind the retained window observes a
Lagged error that advances it past the evicted — permanently missed —
messages. -/
def BROADCAST_CAP : Nat := 1000000

/-- Tweet (src/main.rs lines 641-645); serde serialises the fields in
declaration order: user, then message. -/
structure Tweet where
  user : String
  message : String
deriving DecidableEq

/-- One room's tokio broadcast channel (source: struct Room \x7b tx \x7d).
`chanId` identifies the channel (fresh per creation) so that "same channel"
is expressible; `log` is the whole send history in send order — the ring
buffer itself holds only the suffix of the last BROADCAST_CAP entries, so
the retained window at history length len is the index range
[len - BROADCAST_CAP, len), and eviction is enforced on the receive side
(pollEvent and the Lagged arm of the session step), the evicted prefix
being kept here only as ghost history; `rxCount` is the number of live
receivers (a subscribe increments it, dropping a receiver decrements it;
the initial `_rx` returned by broadcast::channel is dropped immediately by
TwitterState::join). -/
structure Room where
  chanId : Nat
  log : List Tweet
  rxCount : Nat
deriving DecidableEq

/-- TwitterState (src/main.rs lines 652-656): the shared view counter and the
room map (HashMap<usize, Room> modelled as an association list with unique
keys; the Mutex serialises all registry operations, so each operation is an
atomic step here).  `nextChan` is a ghost counter naming channels. -/
structure TwitterState where
  views : Nat
  nextChan : Nat
  rooms : List (Nat × Room)
deriving DecidableEq

/-- Association-list lookup, modelling HashMap::get. -/
def lookupA (rs : List (Nat × Room)) (k : Nat) : Option Room :=
  match rs with
  | [] => none
  | (k2, r) :: rest => if k2 = k then some r else lookupA rest k

/-- Association-list in-place value update at a key, modelling mutation of an
occupied HashMap entry. -/
def updateA (rs : List (Nat × Room)) (k : Nat) (r : Room) : List (Nat × Room) :=
  match rs with
  | [] => []
  | (k2, r2) :: rest => (if k2 = k then (k, r) else (k2, r2)) :: updateA rest k r

def lookupRoom (s : TwitterState) (k : Nat) : Option Room :=
  lookupA s.rooms k

/-- The message log of room k's channel (empty if the room does not exist). -/
def logOf (s : TwitterState) (k : Nat) : List Tweet :=
  match lookupRoom s k with
  | some r => r.log
  | none => []

/-- Number of live receivers on room k's channel. -/
def rxCountOf (s : TwitterState) (k : Nat) : Nat :=
  match lookupRoom s k with
  | some r => r.rxCount
  | none => 0

/-- Identity of room k's channel, if the room exists. -/
def chanIdOf (s : TwitterState) (k : Nat) : Option Nat :=
  (lookupRoom s k).map Room.chanId

/-- A broadcast receiver: the subscribing session's cursor into the room's
log.  `tx.subscribe()` yields exactly the messages sent after the subscribe
call, so the cursor starts at the current log length. -/
structure Subscription where
  room : Nat
  pos : Nat
deriving DecidableEq

/-- TwitterState::join (src/main.rs lines 663-670): under the registry lock,
`rooms.entry(room).or_insert_with(|| broadcast::channel(1_000_000))`, then
hand back a clone of the sender (modelled by the room key itself) and a fresh
subscription. -/
def TwitterState.join (s : TwitterState) (k : Nat) : TwitterState × Subscription :=
  match lookupRoom s k with
  | some r =>
      ({ s with rooms := updateA s.rooms k { r with rxCount := r.rxCount + 1 } },
       { room := k, pos := r.log.length })
  | none =>
      ({ s with nextChan := s.nextChan + 1,
                rooms := s.rooms ++ [(k, { chanId := s.nextChan, log := [], rxCount := 1 })] },
       { room := k, pos := 0 })

/-- TwitterState::inc_views: views.fetch_add(1, SeqCst); wraps at 2^64. -/
def TwitterState.inc_views (s : TwitterState) : TwitterState :=
  { s with views := (s.views + 1) % USIZE }

/-- TwitterState::reset_views: views.store(0, SeqCst). -/
def TwitterState.reset_views (s : TwitterState) : TwitterState :=
  { s with views := 0 }

/-- The effect on the channel of a successful tx.send: appends the tweet to
the room's send history (no-op if the room does not exist; a live sender
implies it does).  When the append overflows BROADCAST_CAP, the ring buffer
evicts its oldest entry: here the evicted prefix stays as ghost history and
the eviction is enforced where it is observable, on the receive side — a
cursor below length - BROADCAST_CAP is outside the retained window, its next
poll yields Lagged (pollEvent), and the Lagged arm of the session step
advances it past the evicted messages. -/
def sendTweet (s : TwitterState) (k : Nat) (t : Tweet) : TwitterState :=
  match lookupRoom s k with
  | some r => { s with rooms := updateA s.rooms k { r with log := r.log ++ [t] } }
  | none => s

/-- tokio broadcast Sender::send: returns Err exactly when the channel has no
live receivers.  The chat loop unwraps this result. -/
def broadcastSend (s : TwitterState) (k : Nat) (t : Tweet) : Except Unit TwitterState :=
  if rxCountOf s k = 0 then .error () else .ok (sendTweet s k t)

/-- Dropping one receiver of room k's channel (the session's rx is dropped
when day19_task2_handle returns). -/
def dropRx (s : TwitterState) (k : Nat) : TwitterState :=
  match lookupRoom s k with
  | some r => { s with rooms := updateA s.rooms k { r with rxCount := r.rxCount - 1 } }
  | none => s

/-- Lowercase hex digit, as used by serde_json's \u00XX escapes. -/
def hexDigit (n : Nat) : Char :=
  if n < 10 then Char.ofNat (48 + n) else Char.ofNat (87 + n)

/-- serde_json's escaping of one character inside a JSON string. -/
def escapeChar (c : Char) : String :=
  if c = '"' then "\\\""
  else if c = '\\' then "\\\\"
  else if c.toNat = 8 then "\\b"
  else if c.toNat = 12 then "\\f"
  else if c = '\n' then "\\n"
  else if c = '\r' then "\\r"
  else if c = '\t' then "\\t"
  else if c.toNat < 32 then
    "\\u00" ++ String.mk [hexDigit (c.toNat / 16), hexDigit (c.toNat % 16)]
  else String.mk [c]

/-- serde_json serialisation of a string. -/
def jsonString (s : String) : String :=
  "\"" ++ String.join (s.data.map escapeChar) ++ "\""

/-- serde_json::to_string of a Tweet (src/main.rs line 737): the object with
fields in declaration order, user then message. -/
def tweetToJson (t : Tweet) : String :=
  "\x7b\"user\":" ++ jsonString t.user ++ ",\"message\":" ++ jsonString t.message ++ "\x7d"

/-- Lifecycle of a chat session: the loop is running (joined) or has been
exited (closed). -/
inductive Phase where
  | joined
  | closed
deriving DecidableEq

/-- The per-connection state of day19_task2_handle: room key, participant
name, the receive cursor of its subscription, and the lifecycle phase. -/
structure ChatSession where
  room : Nat
  user : String
  pos : Nat
  phase : Phase
deriving DecidableEq

/-- Outcome of receiving and decoding one inbound websocket item in the chat
loop (Either::Left branch): transport error on recv, a non-text frame
(to_text fails: binary or close frame), a text frame that serde_json cannot
decode into TweetMessage (not JSON, or missing the message field), or the
successfully decoded message text. -/
inductive InFrame where
  | recvError
  | nonText
  | badJson
  | envelope (text : String)
deriving DecidableEq

/-- One item of the merged stream produced by stream_select!: an inbound
websocket item, the subscription yielding its next pending tweet (Ok), or
the subscription yielding a Lagged error (Err). -/
inductive Event where
  | inbound (f : InFrame)
  | deliver
  | lagged
deriving DecidableEq

/-- One iteration of the day19_task2_handle loop (src/main.rs lines 712-746)
on one merged-stream item.  `sendOk` tells whether socket_sink.send would
succeed this iteration.  Returns the new shared state, the new session state,
and the frames successfully written to the remote connection.  A closed
session has exited the loop, so every event is a no-op for it.  `.deliver`
is the subscription stream yielding Ok(next pending tweet) — in the program
this item occurs only while the cursor is inside the retained window (a poll
outside it yields Lagged instead: pollEvent below); `.lagged` is the stream
yielding Err(Lagged), on which tokio advances the receiver to the oldest
retained message — the evicted messages are permanently missed — and the
handler's `if let Ok` skips the item with no counter increment and no frame. -/
def day19_task2_step (sys : TwitterState) (s : ChatSession) (e : Event) (sendOk : Bool) :
    TwitterState × ChatSession × List String :=
  match s.phase with
  | .closed => (sys, s, [])
  | .joined =>
    match e with
    | .inbound .recvError => (sys, { s with phase := .closed }, [])
    | .inbound .nonText => (sys, { s with phase := .closed }, [])
    | .inbound .badJson => (sys, { s with phase := .closed }, [])
    | .inbound (.envelope text) =>
        if 128 < text.utf8ByteSize then
          (sys, s, [])
        else
          (sendTweet sys s.room { user := s.user, message := text }, s, [])
    | .deliver =>
        match (logOf sys s.room)[s.pos]? with
        | none => (sys, s, [])
        | some t =>
            let sys' := sys.inc_views
            if sendOk then
              (sys', { s with pos := s.pos + 1 }, [tweetToJson t])
            else
              (sys', { s with pos := s.pos + 1, phase := .closed }, [])
    | .lagged =>
        (sys, { s with pos := max s.pos ((logOf sys s.room).length - BROADCAST_CAP) }, [])

/-- n consecutive Ok-delivery events for one session, with the remote
connection accepting every frame; collects the frames forwarded to the
remote.  This is the consumption loop of a subscription that stays inside
the retained window (no Lagged item). -/
def runDeliver (sys : TwitterState) (s : ChatSession) :
    Nat → TwitterState × ChatSession × List String
  | 0 => (sys, s, [])
  | n + 1 =>
      let r1 := day19_task2_step sys s .deliver true
      let r2 := runDeliver r1.1 r1.2.1 n
      (r2.1, r2.2.1, r1.2.2 ++ r2.2.2)

/-- One iteration of day19_task1_handle (src/main.rs lines 619-639) on one
decoded text token: returns the new value of `started` and the reply frame,
if any. -/
def day19_task1_step (started : Bool) (tok : String) : Bool × Option String :=
  if !started then
    if tok = "serve" then (true, none) else (false, none)
  else if tok = "ping" then (true, some "pong")
  else (true, none)

/-- Runs the ping loop over a list of inbound tokens, collecting replies in
order (all sends assumed to succeed). -/
def day19_task1_run (started : Bool) : List String → Bool × List String
  | [] => (started, [])
  | tok :: rest =>
      let r1 := day19_task1_step started tok
      let r2 := day19_task1_run r1.1 rest
      (r2.1, r1.2.toList ++ r2.2)

/-- Whole-service state: the shared TwitterState, every chat session ever
upgraded (by connection index), and the frames written to remote connections,
tagged with the writing session's index. -/
structure World where
  sys : TwitterState
  sessions : List ChatSession
  outputs : List (Nat × String)
deriving DecidableEq

/-- Service-level operations: a connection upgrade that joins a room and
starts a session, one loop iteration of an existing session, and the
view-counter reset endpoint. -/
inductive WOp where
  | joinS (room : Nat) (user : String)
  | sstep (sid : Nat) (e : Event) (sendOk : Bool)
  | resetV
deriving DecidableEq

def emptyWorld : World :=
  { sys := { views := 0, nextChan := 0, rooms := [] }, sessions := [], outputs := [] }

/-- Applies one service-level operation.  When a loop iteration exits the
loop (joined to closed), the session's receiver is dropped with it. -/
def worldApply (w : World) : WOp → World
  | .joinS k u =>
      let r := w.sys.join k
      { w with sys := r.1,
               sessions := w.sessions ++ [{ room := k, user := u, pos := r.2.pos, phase := .joined }] }
  | .resetV => { w with sys := w.sys.reset_views }
  | .sstep sid e ok =>
      match w.sessions[sid]? with
      | none => w
      | some s =>
          let r := day19_task2_step w.sys s e ok
          let sys2 := if s.phase = .joined ∧ r.2.1.phase = .closed then dropRx r.1 s.room else r.1
          { sys := sys2,
            sessions := w.sessions.set sid r.2.1,
            outputs := w.outputs ++ r.2.2.map fun f => (sid, f) }

def applyOps (w : World) : List WOp → World
  | [] => w
  | op :: rest => applyOps (worldApply w op) rest

/-- Whether an operation is a successful (message, subscriber) delivery: a
deliver iteration of a live session with a pending tweet. -/
def isDelivery (w : World) : WOp → Bool
  | .sstep sid .deliver _ =>
      match w.sessions[sid]? with
      | some s => s.phase == .joined && ((logOf w.sys s.room)[s.pos]?).isSome
      | none => false
  | _ => false

/-- Number of successful deliveries performed along a trace. -/
def countDeliveries (w : World) : List WOp → Nat
  | [] => 0
  | op :: rest =>
      (if isDelivery w op then 1 else 0) + countDeliveries (worldApply w op) rest

/-- Number of live sessions currently joined to room k. -/
def joinedCount (w : World) (k : Nat) : Nat :=
  w.sessions.countP fun s => s.phase == Phase.joined && s.room == k

/-- Worlds reachable from the empty service by service-level operations. -/
inductive Reachable : World → Prop where
  | init : Reachable emptyWorld
  | step : ∀ w op, Reachable w → Reachable (worldApply w op)

theorem lookupA_cons (k2 : Nat) (r2 : Room) (rest : List (Nat × Room)) (k : Nat) :
    lookupA ((k2, r2) :: rest) k = if k2 = k then some r2 else lookupA rest k := rfl

theorem updateA_cons (k2 : Nat) (r2 : Room) (rest : List (Nat × Room)) (k : Nat) (r : Room) :
    updateA ((k2, r2) :: rest) k r
      = (if k2 = k then (k, r) else (k2, r2)) :: updateA rest k r := rfl

theorem lookupA_updateA_self {rs : List (Nat × Room)} {k : Nat} {r0 : Room} (r : Room)
    (h : lookupA rs k = some r0) : lookupA (updateA rs k r) k = some r := by
  induction rs with
  | nil => simp [lookupA] at h
  | cons p rest ih =>
    obtain ⟨k2, r2⟩ := p
    by_cases hk : k2 = k
    · subst hk
      simp [updateA_cons, lookupA_cons]
    · simp [updateA_cons, lookupA_cons, hk] at h ⊢
      exact ih h

theorem lookupA_updateA_ne {k k' : Nat} (rs : List (Nat × Room)) (r : Room) (h : k' ≠ k) :
    lookupA (updateA rs k r) k' = lookupA rs k' := by
  induction rs with
  | nil => rfl
  | cons p rest ih =>
    obtain ⟨k2, r2⟩ := p
    by_cases hk : k2 = k
    · subst hk
      simp [updateA_cons, lookupA_cons, Ne.symm h]
      exact ih
    · by_cases hk' : k2 = k'
      · subst hk'
        simp [updateA_cons, lookupA_cons, hk]
      · simp [updateA_cons, lookupA_cons, hk, hk']
        exact ih

theorem lookupA_append_self {rs : List (Nat × Room)} {k : Nat} (r : Room)
    (h : lookupA rs k = none) : lookupA (rs ++ [(k, r)]) k = some r := by
  induction rs with
  | nil => simp [lookupA]
  | cons p rest ih =>
    obtain ⟨k2, r2⟩ := p
    by_cases hk : k2 = k
    · simp [lookupA_cons, hk] at h
    · simp [List.cons_append, lookupA_cons, hk] at h ⊢
      exact ih h

theorem lookupA_append_ne {rs : List (Nat × Room)} {k k' : Nat} (r : Room) (h : k' ≠ k) :
    lookupA (rs ++ [(k, r)]) k' = lookupA rs k' := by
  induction rs with
  | nil => simp [lookupA, Ne.symm h]
  | cons p rest ih =>
    obtain ⟨k2, r2⟩ := p
    by_cases hk' : k2 = k'
    · simp [List.cons_append, lookupA_cons, hk']
    · simp [List.cons_append, lookupA_cons, hk']
      exact ih

theorem lookupRoom_sendTweet_self {s : TwitterState} {k : Nat} {r : Room} (t : Tweet)
    (h : lookupRoom s k = some r) :
    lookupRoom (sendTweet s k t) k = some { r with log := r.log ++ [t] } := by
  simp only [sendTweet, h]
  exact lookupA_updateA_self _ h

theorem sendTweet_absent {s : TwitterState} {k : Nat} (t : Tweet)
    (h : lookupRoom s k = none) : sendTweet s k t = s := by
  simp [sendTweet, h]

theorem lookupRoom_sendTweet_ne {s : TwitterState} {k k' : Nat} (t : Tweet) (h : k' ≠ k) :
    lookupRoom (sendTweet s k t) k' = lookupRoom s k' := by
  rcases hc : lookupRoom s k with _ | r
  · rw [sendTweet_absent t hc]
  · simp only [sendTweet, hc]
    exact lookupA_updateA_ne _ _ h

theorem logOf_sendTweet_ne {s : TwitterState} {k k' : Nat} (t : Tweet) (h : k' ≠ k) :
    logOf (sendTweet s k t) k' = logOf s k' := by
  simp [logOf, lookupRoom_sendTweet_ne t h]

theorem rxCountOf_sendTweet (s : TwitterState) (k k' : Nat) (t : Tweet) :
    rxCountOf (sendTweet s k t) k' = rxCountOf s k' := by
  by_cases h : k' = k
  · subst h
    rcases hc : lookupRoom s k' with _ | r
    · rw [sendTweet_absent t hc]
    · simp [rxCountOf, lookupRoom_sendTweet_self t hc, hc]
  · simp [rxCountOf, lookupRoom_sendTweet_ne t h]

theorem chanIdOf_sendTweet (s : TwitterState) (k k' : Nat) (t : Tweet) :
    chanIdOf (sendTweet s k t) k' = chanIdOf s k' := by
  by_cases h : k' = k
  · subst h
    rcases hc : lookupRoom s k' with _ | r
    · rw [sendTweet_absent t hc]
    · simp [chanIdOf, lookupRoom_sendTweet_self t hc, hc]
  · simp [chanIdOf, lookupRoom_sendTweet_ne t h]

theorem views_sendTweet (s : TwitterState) (k : Nat) (t : Tweet) :
    (sendTweet s k t).views = s.views := by
  rcases hc : lookupRoom s k with _ | r <;> simp [sendTweet, hc]

theorem nextChan_sendTweet (s : TwitterState) (k : Nat) (t : Tweet) :
    (sendTweet s k t).nextChan = s.nextChan := by
  rcases hc : lookupRoom s k with _ | r <;> simp [sendTweet, hc]

theorem lookupRoom_inc_views (s : TwitterState) (k : Nat) :
    lookupRoom s.inc_views k = lookupRoom s k := rfl

theorem lookupRoom_reset_views (s : TwitterState) (k : Nat) :
    lookupRoom s.reset_views k = lookupRoom s k := rfl

theorem logOf_inc_views (s : TwitterState) (k : Nat) : logOf s.inc_views k = logOf s k := rfl

theorem rxCountOf_inc_views (s : TwitterState) (k : Nat) :
    rxCountOf s.inc_views k = rxCountOf s k := rfl

theorem chanIdOf_inc_views (s : TwitterState) (k : Nat) :
    chanIdOf s.inc_views k = chanIdOf s k := rfl

theorem join_absent {s : TwitterState} {k : Nat} (h : lookupRoom s k = none) :
    lookupRoom (s.join k).1 k = some { chanId := s.nextChan, log := [], rxCount := 1 }
    ∧ (s.join k).2 = { room := k, pos := 0 }
    ∧ (s.join k).1.nextChan = s.nextChan + 1
    ∧ (s.join k).1.views = s.views := by
  have h1 : (s.join k).1 = { s with
      nextChan := s.nextChan + 1,
      rooms := s.rooms ++ [(k, { chanId := s.nextChan, log := [], rxCount := 1 })] } := by
    simp [TwitterState.join, h]
  have h2 : (s.join k).2 = { room := k, pos := 0 } := by
    simp [TwitterState.join, h]
  refine ⟨?_, h2, ?_, ?_⟩
  · rw [h1]
    exact lookupA_append_self _ h
  · rw [h1]
  · rw [h1]

theorem join_present {s : TwitterState} {k : Nat} {r : Room} (h : lookupRoom s k = some r) :
    lookupRoom (s.join k).1 k = some { r with rxCount := r.rxCount + 1 }
    ∧ (s.join k).2 = { room := k, pos := r.log.length }
    ∧ (s.join k).1.nextChan = s.nextChan
    ∧ (s.join k).1.views = s.views := by
  have h1 : (s.join k).1 = { s with
      rooms := updateA s.rooms k { r with rxCount := r.rxCount + 1 } } := by
    simp [TwitterState.join, h]
  have h2 : (s.join k).2 = { room := k, pos := r.log.length } := by
    simp [TwitterState.join, h]
  refine ⟨?_, h2, ?_, ?_⟩
  · rw [h1]
    exact lookupA_updateA_self _ h
  · rw [h1]
  · rw [h1]

theorem lookupRoom_join_ne {s : TwitterState} {k k' : Nat} (h : k' ≠ k) :
    lookupRoom (s.join k).1 k' = lookupRoom s k' := by
  rcases hc : lookupRoom s k with _ | r
  · simp only [TwitterState.join, hc]
    exact lookupA_append_ne _ h
  · simp only [TwitterState.join, hc]
    exact lookupA_updateA_ne _ _ h

theorem rxCountOf_join_self (s : TwitterState) (k : Nat) :
    rxCountOf (s.join k).1 k = rxCountOf s k + 1 := by
  rcases hc : lookupRoom s k with _ | r
  · simp [rxCountOf, (join_absent hc).1, hc]
  · simp [rxCountOf, (join_present hc).1, hc]

theorem rxCountOf_join_ne {s : TwitterState} {k k' : Nat} (h : k' ≠ k) :
    rxCountOf (s.join k).1 k' = rxCountOf s k' := by
  simp [rxCountOf, lookupRoom_join_ne h]

theorem views_join (s : TwitterState) (k : Nat) : (s.join k).1.views = s.views := by
  rcases hc : lookupRoom s k with _ | r
  · exact (join_absent hc).2.2.2
  · exact (join_present hc).2.2.2

theorem dropRx_absent {s : TwitterState} {k : Nat} (h : lookupRoom s k = none) :
    dropRx s k = s := by
  simp [dropRx, h]

theorem lookupRoom_dropRx_self {s : TwitterState} {k : Nat} {r : Room}
    (h : lookupRoom s k = some r) :
    lookupRoom (dropRx s k) k = some { r with rxCount := r.rxCount - 1 } := by
  simp only [dropRx, h]
  exact lookupA_updateA_self _ h

theorem lookupRoom_dropRx_ne {s : TwitterState} {k k' : Nat} (h : k' ≠ k) :
    lookupRoom (dropRx s k) k' = lookupRoom s k' := by
  rcases hc : lookupRoom s k with _ | r
  · rw [dropRx_absent hc]
  · simp only [dropRx, hc]
    exact lookupA_updateA_ne _ _ h

theorem rxCountOf_dropRx_self (s : TwitterState) (k : Nat) :
    rxCountOf (dropRx s k) k = rxCountOf s k - 1 := by
  rcases hc : lookupRoom s k with _ | r
  · rw [dropRx_absent hc]
    simp [rxCountOf, hc]
  · simp [rxCountOf, lookupRoom_dropRx_self hc, hc]

theorem rxCountOf_dropRx_ne {s : TwitterState} {k k' : Nat} (h : k' ≠ k) :
    rxCountOf (dropRx s k) k' = rxCountOf s k' := by
  simp [rxCountOf, lookupRoom_dropRx_ne h]

theorem chanIdOf_dropRx (s : TwitterState) (k k' : Nat) :
    chanIdOf (dropRx s k) k' = chanIdOf s k' := by
  by_cases h : k' = k
  · subst h
    rcases hc : lookupRoom s k' with _ | r
    · rw [dropRx_absent hc]
    · simp [chanIdOf, lookupRoom_dropRx_self hc, hc]
  · simp [chanIdOf, lookupRoom_dropRx_ne h]

theorem logOf_dropRx (s : TwitterState) (k k' : Nat) :
    logOf (dropRx s k) k' = logOf s k' := by
  by_cases h : k' = k
  · subst h
    rcases hc : lookupRoom s k' with _ | r
    · rw [dropRx_absent hc]
    · simp [logOf, lookupRoom_dropRx_self hc, hc]
  · simp [logOf, lookupRoom_dropRx_ne h]

theorem views_dropRx (s : TwitterState) (k : Nat) : (dropRx s k).views = s.views := by
  rcases hc : lookupRoom s k with _ | r <;> simp [dropRx, hc]

theorem nextChan_dropRx (s : TwitterState) (k : Nat) :
    (dropRx s k).nextChan = s.nextChan := by
  rcases hc : lookupRoom s k with _ | r <;> simp [dropRx, hc]

theorem step_closed {sys : TwitterState} {s : ChatSession} (e : Event) (ok : Bool)
    (h : s.phase = .closed) : day19_task2_step sys s e ok = (sys, s, []) := by
  simp [day19_task2_step, h]

theorem step_recvError {sys : TwitterState} {s : ChatSession} (ok : Bool)
    (h : s.phase = .joined) :
    day19_task2_step sys s (.inbound .recvError) ok = (sys, { s with phase := .closed }, []) := by
  simp [day19_task2_step, h]

theorem step_nonText {sys : TwitterState} {s : ChatSession} (ok : Bool)
    (h : s.phase = .joined) :
    day19_task2_step sys s (.inbound .nonText) ok = (sys, { s with phase := .closed }, []) := by
  simp [day19_task2_step, h]

theorem step_badJson {sys : TwitterState} {s : ChatSession} (ok : Bool)
    (h : s.phase = .joined) :
    day19_task2_step sys s (.inbound .badJson) ok = (sys, { s with phase := .closed }, []) := by
  simp [day19_task2_step, h]

theorem step_envelope_long {sys : TwitterState} {s : ChatSession} {text : String} (ok : Bool)
    (h : s.phase = .joined) (hlen : 128 < text.utf8ByteSize) :
    day19_task2_step sys s (.inbound (.envelope text)) ok = (sys, s, []) := by
  simp [day19_task2_step, h, hlen]

theorem step_envelope_short {sys : TwitterState} {s : ChatSession} {text : String} (ok : Bool)
    (h : s.phase = .joined) (hlen : text.utf8ByteSize ≤ 128) :
    day19_task2_step sys s (.inbound (.envelope text)) ok
      = (sendTweet sys s.room { user := s.user, message := text }, s, []) := by
  simp [day19_task2_step, h, Nat.not_lt.mpr hlen]

theorem step_deliver_none {sys : TwitterState} {s : ChatSession} (ok : Bool)
    (h : s.phase = .joined) (hp : (logOf sys s.room)[s.pos]? = none) :
    day19_task2_step sys s .deliver ok = (sys, s, []) := by
  simp [day19_task2_step, h, hp]

theorem step_deliver_some {sys : TwitterState} {s : ChatSession} {t : Tweet}
    (h : s.phase = .joined) (hp : (logOf sys s.room)[s.pos]? = some t) :
    day19_task2_step sys s .deliver true
      = (sys.inc_views, { s with pos := s.pos + 1 }, [tweetToJson t]) := by
  simp [day19_task2_step, h, hp]

theorem step_deliver_some_fail {sys : TwitterState} {s : ChatSession} {t : Tweet}
    (h : s.phase = .joined) (hp : (logOf sys s.room)[s.pos]? = some t) :
    day19_task2_step sys s .deliver false
      = (sys.inc_views, { s with pos := s.pos + 1, phase := .closed }, []) := by
  simp [day19_task2_step, h, hp]

theorem step_sess_inv (sys : TwitterState) (s : ChatSession) (e : Event) (ok : Bool) :
    (day19_task2_step sys s e ok).2.1.room = s.room
    ∧ (day19_task2_step sys s e ok).2.1.user = s.user := by
  rcases hph : s.phase with _ | _
  · rcases e with f | _ | _
    · rcases f with _ | _ | _ | text
      · simp [day19_task2_step, hph]
      · simp [day19_task2_step, hph]
      · simp [day19_task2_step, hph]
      · by_cases hl : 128 < text.utf8ByteSize <;> simp [day19_task2_step, hph, hl]
    · rcases hp : (logOf sys s.room)[s.pos]? with _ | t
      · simp [day19_task2_step, hph, hp]
      · cases ok <;> simp [day19_task2_step, hph, hp]
    · simp [day19_task2_step, hph]
  · simp [day19_task2_step, hph]

theorem step_rxCount (sys : TwitterState) (s : ChatSession) (e : Event) (ok : Bool) (k : Nat) :
    rxCountOf (day19_task2_step sys s e ok).1 k = rxCountOf sys k := by
  rcases hph : s.phase with _ | _
  · rcases e with f | _ | _
    · rcases f with _ | _ | _ | text
      · simp [day19_task2_step, hph]
      · simp [day19_task2_step, hph]
      · simp [day19_task2_step, hph]
      · by_cases hl : 128 < text.utf8ByteSize <;>
          simp [day19_task2_step, hph, hl, rxCountOf_sendTweet]
    · rcases hp : (logOf sys s.room)[s.pos]? with _ | t
      · simp [day19_task2_step, hph, hp]
      · cases ok <;> simp [day19_task2_step, hph, hp, rxCountOf_inc_views]
    · simp [day19_task2_step, hph]
  · simp [day19_task2_step, hph]

theorem step_chanId (sys : TwitterState) (s : ChatSession) (e : Event) (ok : Bool) (k : Nat) :
    chanIdOf (day19_task2_step sys s e ok).1 k = chanIdOf sys k := by
  rcases hph : s.phase with _ | _
  · rcases e with f | _ | _
    · rcases f with _ | _ | _ | text
      · simp [day19_task2_step, hph]
      · simp [day19_task2_step, hph]
      · simp [day19_task2_step, hph]
      · by_cases hl : 128 < text.utf8ByteSize <;>
          simp [day19_task2_step, hph, hl, chanIdOf_sendTweet]
    · rcases hp : (logOf sys s.room)[s.pos]? with _ | t
      · simp [day19_task2_step, hph, hp]
      · cases ok <;> simp [day19_task2_step, hph, hp, chanIdOf_inc_views]
    · simp [day19_task2_step, hph]
  · simp [day19_task2_step, hph]

theorem step_views (sys : TwitterState) (s : ChatSession) (e : Event) (ok : Bool) :
    (day19_task2_step sys s e ok).1.views =
      if s.phase = .joined ∧ e = .deliver ∧ ((logOf sys s.room)[s.pos]?).isSome
      then (sys.views + 1) % USIZE else sys.views := by
  rcases hph : s.phase with _ | _
  · rcases e with f | _ | _
    · rcases f with _ | _ | _ | text
      · simp [day19_task2_step, hph]
      · simp [day19_task2_step, hph]
      · simp [day19_task2_step, hph]
      · by_cases hl : 128 < text.utf8ByteSize <;>
          simp [day19_task2_step, hph, hl, views_sendTweet]
    · rcases hp : (logOf sys s.room)[s.pos]? with _ | t
      · simp [day19_task2_step, hph, hp]
      · cases ok <;> simp [day19_task2_step, hph, hp, TwitterState.inc_views]
    · simp [day19_task2_step, hph]
  · simp [day19_task2_step, hph]

theorem step_log_deliver (sys : TwitterState) (s : ChatSession) (ok : Bool) (k : Nat) :
    logOf (day19_task2_step sys s .deliver ok).1 k = logOf sys k := by
  rcases hph : s.phase with _ | _
  · rcases hp : (logOf sys s.room)[s.pos]? with _ | t
    · simp [day19_task2_step, hph, hp]
    · cases ok <;> simp [day19_task2_step, hph, hp, logOf_inc_views]
  · simp [day19_task2_step, hph]

theorem runDeliver_frames (n : Nat) :
    ∀ (sys : TwitterState) (s : ChatSession), s.phase = .joined →
    (runDeliver sys s n).2.2
      = (((logOf sys s.room).drop s.pos).take n).map tweetToJson := by
  induction n with
  | zero => intro sys s _; simp [runDeliver]
  | succ n ih =>
    intro sys s hph
    rcases hp : (logOf sys s.room)[s.pos]? with _ | t
    · have hnil : (logOf sys s.room).drop s.pos = [] :=
        List.drop_eq_nil_of_le (List.getElem?_eq_none_iff.mp hp)
      simp only [runDeliver, step_deliver_none true hph hp]
      simp [ih sys s hph, hnil]
    · have hcons : (logOf sys s.room).drop s.pos
          = t :: (logOf sys s.room).drop (s.pos + 1) := by
        obtain ⟨hlt, hget⟩ := List.getElem?_eq_some.mp hp
        rw [List.drop_eq_getElem_cons hlt, hget]
      simp only [runDeliver, step_deliver_some hph hp]
      have hih := ih sys.inc_views { s with pos := s.pos + 1 } hph
      simp only [logOf_inc_views] at hih
      simp [hih, hcons]

theorem countP_set_add {α : Type} (p : α → Bool) (l : List α) (i : Nat) (a b : α)
    (h : l[i]? = some a) :
    (l.set i b).countP p + (if p a then 1 else 0)
      = l.countP p + (if p b then 1 else 0) := by
  induction l generalizing i with
  | nil => simp at h
  | cons x xs ih =>
    cases i with
    | zero =>
      simp only [List.getElem?_cons_zero, Option.some.injEq] at h
      subst h
      simp only [List.set_cons_zero, List.countP_cons]
      omega
    | succ j =>
      simp only [List.getElem?_cons_succ] at h
      simp only [List.set_cons_succ, List.countP_cons]
      have h2 := ih j h
      omega

theorem countP_pos_of_getElem {α : Type} (p : α → Bool) (l : List α) (i : Nat) (a : α)
    (h : l[i]? = some a) (hp : p a = true) : 0 < l.countP p := by
  apply List.countP_pos_iff.mpr
  obtain ⟨hl, hg⟩ := List.getElem?_eq_some.mp h
  exact ⟨a, hg ▸ List.getElem_mem hl, hp⟩

theorem worldApply_sstep_some {w : World} {sid : Nat} {s : ChatSession} (e : Event) (ok : Bool)
    (h : w.sessions[sid]? = some s) :
    worldApply w (.sstep sid e ok) =
      { sys := if s.phase = .joined ∧ (day19_task2_step w.sys s e ok).2.1.phase = .closed
               then dropRx (day19_task2_step w.sys s e ok).1 s.room
               else (day19_task2_step w.sys s e ok).1,
        sessions := w.sessions.set sid (day19_task2_step w.sys s e ok).2.1,
        outputs := w.outputs ++ (day19_task2_step w.sys s e ok).2.2.map fun f => (sid, f) } := by
  simp [worldApply, h]

/-- Invariant: every room's broadcast channel has at least as many live
receivers as there are sessions currently joined to it (each joined session
holds the receiver it obtained at join). -/
def rxInv (w : World) : Prop := ∀ k, joinedCount w k ≤ rxCountOf w.sys k

theorem rxInv_empty : rxInv emptyWorld := by
  intro k
  simp [joinedCount, emptyWorld]

theorem rxInv_step (w : World) (op : WOp) (h : rxInv w) : rxInv (worldApply w op) := by
  rcases op with ⟨k, u⟩ | ⟨sid, e, ok⟩ | _
  · intro k'
    by_cases hk : k' = k
    · subst hk
      have h1 : joinedCount (worldApply w (.joinS k' u)) k' = joinedCount w k' + 1 := by
        simp [worldApply, joinedCount, List.countP_append, List.countP_cons]
      have h2 : rxCountOf (worldApply w (.joinS k' u)).sys k' = rxCountOf w.sys k' + 1 := by
        have := rxCountOf_join_self w.sys k'
        simpa [worldApply] using this
      rw [h1, h2]
      exact Nat.succ_le_succ (h k')
    · have h1 : joinedCount (worldApply w (.joinS k u)) k' = joinedCount w k' := by
        simp [worldApply, joinedCount, List.countP_append, List.countP_cons, Ne.symm hk]
      have h2 : rxCountOf (worldApply w (.joinS k u)).sys k' = rxCountOf w.sys k' := by
        have := rxCountOf_join_ne (s := w.sys) hk
        simpa [worldApply] using this
      rw [h1, h2]
      exact h k'
  · rcases hs : w.sessions[sid]? with _ | s
    · intro k'
      simpa [worldApply, hs] using h k'
    · intro k'
      have hroom : (day19_task2_step w.sys s e ok).2.1.room = s.room :=
        (step_sess_inv w.sys s e ok).1
      have hrx : rxCountOf (day19_task2_step w.sys s e ok).1 k'
          = rxCountOf w.sys k' := step_rxCount w.sys s e ok k'
      have hcount := countP_set_add
        (fun ss => ss.phase == Phase.joined && ss.room == k')
        w.sessions sid s (day19_task2_step w.sys s e ok).2.1 hs
      rw [worldApply_sstep_some e ok hs]
      by_cases hcl : s.phase = .joined ∧ (day19_task2_step w.sys s e ok).2.1.phase = .closed
      · by_cases hk : k' = s.room
        · subst hk
          have hps : ((fun ss => ss.phase == Phase.joined && ss.room == s.room) s) = true := by
            simp [hcl.1]
          have hps' : ((fun ss => ss.phase == Phase.joined && ss.room == s.room)
              (day19_task2_step w.sys s e ok).2.1) = false := by
            simp [hcl.2]
          rw [hps, hps'] at hcount
          simp only [if_true] at hcount
          norm_num at hcount
          have hrxd : rxCountOf (dropRx (day19_task2_step w.sys s e ok).1 s.room) s.room
              = rxCountOf w.sys s.room - 1 := by
            rw [rxCountOf_dropRx_self, hrx]
          have hw := h s.room
          simp only [joinedCount] at hw ⊢
          simp only [if_pos hcl, hrxd]
          omega
        · have hps : ((fun ss => ss.phase == Phase.joined && ss.room == k') s) = false := by
            simp [Ne.symm hk]
          have hps' : ((fun ss => ss.phase == Phase.joined && ss.room == k')
              (day19_task2_step w.sys s e ok).2.1) = false := by
            simp [hroom, Ne.symm hk]
          rw [hps, hps'] at hcount
          norm_num at hcount
          have hrxd : rxCountOf (dropRx (day19_task2_step w.sys s e ok).1 s.room) k'
              = rxCountOf w.sys k' := by
            rw [rxCountOf_dropRx_ne hk, hrx]
          have hw := h k'
          simp only [joinedCount] at hw ⊢
          simp only [if_pos hcl, hrxd]
          omega
      · have hsame : ((fun ss => ss.phase == Phase.joined && ss.room == k')
            (day19_task2_step w.sys s e ok).2.1)
            = ((fun ss => ss.phase == Phase.joined && ss.room == k') s) := by
          rcases hph : s.phase with _ | _
          · rcases hph2 : (day19_task2_step w.sys s e ok).2.1.phase with _ | _
            · simp [hph, hph2, hroom]
            · exact absurd ⟨hph, hph2⟩ hcl
          · have : day19_task2_step w.sys s e ok = (w.sys, s, []) := step_closed e ok hph
            rw [this]
        rw [hsame] at hcount
        have hw := h k'
        simp only [joinedCount] at hw ⊢
        simp only [if_neg hcl, hrx]
        omega
  · intro k'
    have h1 : joinedCount (worldApply w .resetV) k' = joinedCount w k' := by
      simp [worldApply, joinedCount]
    have h2 : rxCountOf (worldApply w .resetV).sys k' = rxCountOf w.sys k' := by
      simp [worldApply]
      rfl
    rw [h1, h2]
    exact h k'

theorem rxInv_reachable : ∀ {w : World}, Reachable w → rxInv w := by
  intro w h
  induction h with
  | init => exact rxInv_empty
  | step w op _ ih => exact rxInv_step w op ih

theorem worldApply_views (w : World) (op : WOp) (hop : op ≠ WOp.resetV) :
    (worldApply w op).sys.views =
      if isDelivery w op then (w.sys.views + 1) % USIZE else w.sys.views := by
  rcases op with ⟨k, u⟩ | ⟨sid, e, ok⟩ | _
  · simp [worldApply, isDelivery, views_join]
  · rcases hs : w.sessions[sid]? with _ | s
    · rcases e with f | _ | _ <;> simp [worldApply, isDelivery, hs]
    · have hv := step_views w.sys s e ok
      have hsys2 : (worldApply w (.sstep sid e ok)).sys.views
          = (day19_task2_step w.sys s e ok).1.views := by
        rw [worldApply_sstep_some e ok hs]
        by_cases hcl : s.phase = .joined ∧ (day19_task2_step w.sys s e ok).2.1.phase = .closed
        · simp [hcl, views_dropRx]
        · simp [hcl]
      rw [hsys2, hv]
      rcases e with f | _ | _
      · simp [isDelivery, hs]
      · by_cases hph : s.phase = Phase.joined <;>
          by_cases hpend : ((logOf w.sys s.room)[s.pos]?).isSome <;>
          simp [isDelivery, hs, hph, hpend]
      · simp [isDelivery, hs]
  · exact absurd rfl hop

theorem applyOps_views (ops : List WOp) :
    ∀ (w : World), (∀ op ∈ ops, op ≠ WOp.resetV) → w.sys.views < USIZE →
    (applyOps w ops).sys.views = (w.sys.views + countDeliveries w ops) % USIZE := by
  induction ops with
  | nil =>
    intro w _ hlt
    simp [applyOps, countDeliveries, Nat.mod_eq_of_lt hlt]
  | cons op rest ih =>
    intro w hno hlt
    have hop : op ≠ WOp.resetV := hno op (List.mem_cons_self _ _)
    have hrest : ∀ o ∈ rest, o ≠ WOp.resetV := fun o ho => hno o (List.mem_cons_of_mem _ ho)
    have hv := worldApply_views w op hop
    have hU : 0 < USIZE := by norm_num [USIZE]
    by_cases hd : isDelivery w op
    · have hlt' : (worldApply w op).sys.views < USIZE := by
        rw [hv, if_pos hd]
        exact Nat.mod_lt _ hU
      have := ih (worldApply w op) hrest hlt'
      rw [applyOps, this, hv, if_pos hd]
      rw [countDeliveries, if_pos hd, Nat.mod_add_mod]
      ring_nf
    · have hlt' : (worldApply w op).sys.views < USIZE := by
        rw [hv, if_neg hd]
        exact hlt
      have := ih (worldApply w op) hrest hlt'
      rw [applyOps, this, hv, if_neg hd]
      rw [countDeliveries, if_neg hd]
      norm_num

theorem day19_task1_run_no_serve (toks : List String) (h : "serve" ∉ toks) :
    day19_task1_run false toks = (false, []) := by
  induction toks with
  | nil => rfl
  | cons tok rest ih =>
    have h1 : tok ≠ "serve" := fun hh => h (hh ▸ List.mem_cons_self _ _)
    have h2 : "serve" ∉ rest := fun hh => h (List.mem_cons_of_mem _ hh)
    simp [day19_task1_run, day19_task1_step, h1, ih h2]

theorem day19_task1_run_started (toks : List String) :
    day19_task1_run true toks = (true, List.replicate (toks.count "ping") "pong") := by
  induction toks with
  | nil => rfl
  | cons tok rest ih =>
    by_cases hp : tok = "ping"
    · subst hp
      simp [day19_task1_run, day19_task1_step, ih, List.count_cons, List.replicate_succ]
    · simp [day19_task1_run, day19_task1_step, hp, ih, List.count_cons]

theorem day19_task1_run_append (b : Bool) (xs ys : List String) :
    day19_task1_run b (xs ++ ys) =
      ((day19_task1_run (day19_task1_run b xs).1 ys).1,
       (day19_task1_run b xs).2 ++ (day19_task1_run (day19_task1_run b xs).1 ys).2) := by
  induction xs generalizing b with
  | nil => simp [day19_task1_run]
  | cons x xs ih =>
    simp [day19_task1_run, ih]

/-- The initial shared state: Default::default() for TwitterState. -/
def emptyTS : TwitterState := { views := 0, nextChan := 0, rooms := [] }

/-- A shared state in which room 0 exists with one subscriber (one join of
room 0 performed on the initial state). -/
def sysEx : TwitterState := (emptyTS.join 0).1

/-- The session obtained by that join: user "u", cursor at the start of room
0's (empty) log. -/
def sessEx : ChatSession := { room := 0, user := "u", pos := 0, phase := .joined }

/-- 65 copies of the two-byte character é: 65 characters, 130 UTF-8 bytes. -/
def longMultibyte : String := String.mk (List.replicate 65 'é')

/-- The one-session world: one connection joined room 0 as "u". -/
def wEx : World := worldApply emptyWorld (.joinS 0 "u")

/-- The room-7 scenario trace: alice and bob join room 7, alice sends hi,
then each session receives its pending broadcast item once. -/
def scenarioOps : List WOp :=
  [.joinS 7 "alice", .joinS 7 "bob",
   .sstep 0 (.inbound (.envelope "hi")) true,
   .sstep 0 .deliver true,
   .sstep 1 .deliver true]

def scenarioW : World := applyOps emptyWorld scenarioOps

/-- C4: the ping session (day19_task1_handle) is a two-state machine: any
"ping" received before a "serve" yields no reply (and the state stays Idle);
"serve" switches to Started with no reply; once Started, every "ping" yields
exactly one "pong" (n pings after serve yield n pongs in order) and every
other token is silently ignored with no reply and no state change; the state
never returns from Started to Idle. -/
theorem C4_ping_state_machine :
    (∀ toks : List String, "serve" ∉ toks → day19_task1_run false toks = (false, []))
    ∧ day19_task1_step false "serve" = (true, none)
    ∧ (∀ tok : String, tok ≠ "serve" → day19_task1_step false tok = (false, none))
    ∧ (∀ toks : List String, day19_task1_run true toks
        = (true, List.replicate (toks.count "ping") "pong"))
    ∧ (∀ tok : String, tok ≠ "ping" → day19_task1_step true tok = (true, none))
    ∧ (∀ pre post : List String, "serve" ∉ pre →
        day19_task1_run false (pre ++ "serve" :: post)
          = (true, List.replicate (post.count "ping") "pong")) := by
  refine ⟨day19_task1_run_no_serve, rfl, ?_, day19_task1_run_started, ?_, ?_⟩
  · intro tok h
    simp [day19_task1_step, h]
  · intro tok h
    simp [day19_task1_step, h]
  · intro pre post h
    rw [day19_task1_run_append, day19_task1_run_no_serve pre h]
    have h2 : day19_task1_run false ("serve" :: post)
        = (true, List.replicate (post.count "ping") "pong") := by
      simp [day19_task1_run, day19_task1_step, day19_task1_run_started]
    rw [h2]
    simp

/-- C4 witness: two pings with no serve draw no reply; after a serve, three
pings among other tokens draw exactly three pongs. -/
theorem C4_ping_state_machine_witness :
    day19_task1_run false ["ping", "ping"] = (false, [])
    ∧ day19_task1_run false (["ping"] ++ "serve" :: ["ping", "x", "ping", "ping"])
      = (true, ["pong", "pong", "pong"]) := by
  refine ⟨C4_ping_state_machine.1 ["ping", "ping"] (by decide), ?_⟩
  have h := C4_ping_state_machine.2.2.2.2.2 ["ping"] ["ping", "x", "ping", "ping"] (by decide)
  exact h.trans (by decide)

/-- C10: when the subscription stream yields a Lagged error item (the
receiver missed messages because the channel buffer was exceeded), the
session silently skips it: the shared state — hence the view counter — is
not touched, no frame is sent to the remote, the session's phase is
preserved (a Joined session stays Joined) as are its room and name, and the
loop continues with the next event.  Per tokio semantics the skipped
receiver's cursor is advanced to the oldest retained message — the claim
asserts nothing about the cursor. -/
theorem C10_lagged_item_skipped (sys : TwitterState) (s : ChatSession) (ok : Bool) :
    (day19_task2_step sys s .lagged ok).1 = sys
    ∧ (day19_task2_step sys s .lagged ok).2.2 = []
    ∧ (day19_task2_step sys s .lagged ok).2.1.phase = s.phase
    ∧ (day19_task2_step sys s .lagged ok).2.1.room = s.room
    ∧ (day19_task2_step sys s .lagged ok).2.1.user = s.user := by
  rcases h : s.phase with _ | _ <;> simp [day19_task2_step, h]

/-- C2 counterexample: longMultibyte is 65 characters (≤ 128), so the claim
requires the session to publish it; but the code compares the UTF-8 byte
length (130 here) against 128 and silently discards: the step leaves the
whole state unchanged, whereas a publish would have grown room 0's log. -/
theorem C2_counterexample :
    longMultibyte.length = 65
    ∧ day19_task2_step sysEx sessEx (.inbound (.envelope longMultibyte)) true
        = (sysEx, sessEx, [])
    ∧ sendTweet sysEx sessEx.room { user := sessEx.user, message := longMultibyte }
        ≠ sysEx := by
  refine ⟨by decide, by decide, by decide⟩

/-- C2 amended: with the UTF-8 byte length (the code's String::len) in place
of the character count: a successfully decoded envelope whose text exceeds
128 bytes is silently discarded — no publish, no reply, no view-counter
change, session stays Joined — otherwise the session publishes the Message
pairing its participant name with the text to the room's channel. -/
theorem C2_size_policy (sys : TwitterState) (s : ChatSession) (ok : Bool)
    (text : String) (h : s.phase = .joined) :
    (128 < text.utf8ByteSize →
      day19_task2_step sys s (.inbound (.envelope text)) ok = (sys, s, []))
    ∧ (text.utf8ByteSize ≤ 128 →
      day19_task2_step sys s (.inbound (.envelope text)) ok
        = (sendTweet sys s.room { user := s.user, message := text }, s, [])) :=
  ⟨fun hl => step_envelope_long ok h hl, fun hl => step_envelope_short ok h hl⟩

/-- C2 witness: the 130-byte text is discarded with no state change; "hi" is
published to room 0. -/
theorem C2_size_policy_witness :
    day19_task2_step sysEx sessEx (.inbound (.envelope longMultibyte)) true
      = (sysEx, sessEx, [])
    ∧ day19_task2_step sysEx sessEx (.inbound (.envelope "hi")) true
      = (sendTweet sysEx sessEx.room { user := sessEx.user, message := "hi" }, sessEx, []) :=
  ⟨(C2_size_policy sysEx sessEx true longMultibyte rfl).1 (by decide),
   (C2_size_policy sysEx sessEx true "hi" rfl).2 (by decide)⟩

/-- C6 counterexample: a decoded message accepted for publish does not close
the session: in the iteration in which "hi" is published (room 0's log grows
by the message) the session's phase is still Joined, against the claim's
"accepted for publish" trigger. -/
theorem C6_counterexample :
    logOf (day19_task2_step sysEx sessEx (.inbound (.envelope "hi")) true).1 0
      = [{ user := "u", message := "hi" }]
    ∧ (day19_task2_step sysEx sessEx (.inbound (.envelope "hi")) true).2.1.phase
        = .joined := by
  refine ⟨by decide, by decide⟩

/-- C6 amended: the chat session transitions Joined→Closed when the remote
closes or errors the connection, when a local send of a pending delivery to
the remote fails, and when an inbound frame fails to decode; a decoded
message accepted for publish leaves the session Joined and the loop running. -/
theorem C6_close_triggers (sys : TwitterState) (s : ChatSession) (ok : Bool)
    (h : s.phase = .joined) :
    (day19_task2_step sys s (.inbound .recvError) ok).2.1.phase = .closed
    ∧ (day19_task2_step sys s (.inbound .nonText) ok).2.1.phase = .closed
    ∧ (day19_task2_step sys s (.inbound .badJson) ok).2.1.phase = .closed
    ∧ (∀ t : Tweet, (logOf sys s.room)[s.pos]? = some t →
        (day19_task2_step sys s .deliver false).2.1.phase = .closed)
    ∧ (∀ text : String, text.utf8ByteSize ≤ 128 →
        (day19_task2_step sys s (.inbound (.envelope text)) ok).2.1.phase = .joined) := by
  refine ⟨?_, ?_, ?_, ?_, ?_⟩
  · rw [step_recvError ok h]
  · rw [step_nonText ok h]
  · rw [step_badJson ok h]
  · intro t ht
    rw [step_deliver_some_fail h ht]
  · intro text hl
    rw [step_envelope_short ok h hl]
    exact h

/-- C6 witness: decode failure closes the session; an accepted publish keeps
it Joined. -/
theorem C6_close_triggers_witness :
    (day19_task2_step sysEx sessEx (.inbound .badJson) true).2.1.phase = .closed
    ∧ (day19_task2_step sysEx sessEx (.inbound (.envelope "hi")) true).2.1.phase
        = .joined :=
  ⟨(C6_close_triggers sysEx sessEx true rfl).2.2.1,
   (C6_close_triggers sysEx sessEx true rfl).2.2.2.2 "hi" (by decide)⟩

/-- C7: a protocol violation — an inbound frame that is not text, or text
that is not valid JSON or lacks the message field — is fatal to that session
only: the iteration closes the session, publishes nothing, sends nothing,
and leaves the shared state untouched; a closed session performs no further
operation (no retry); at the service level the step leaves every other
session's state intact and, although the dying session's receiver is
dropped, the room's channel identity, its log, the view counter, and the
output history all survive unchanged. -/
theorem C7_protocol_violation_fatal_to_session_only (sys : TwitterState)
    (s : ChatSession) (f : InFrame) (ok : Bool) (hph : s.phase = .joined)
    (hf : f = .nonText ∨ f = .badJson) :
    day19_task2_step sys s (.inbound f) ok = (sys, { s with phase := .closed }, [])
    ∧ (∀ (e : Event) (ok2 : Bool),
        day19_task2_step sys { s with phase := .closed } e ok2
          = (sys, { s with phase := .closed }, []))
    ∧ (∀ (w : World) (sid j : Nat), w.sessions[sid]? = some s → j ≠ sid →
        (worldApply w (.sstep sid (.inbound f) ok)).sessions[j]? = w.sessions[j]?)
    ∧ (∀ (w : World) (sid k : Nat), w.sessions[sid]? = some s →
        chanIdOf (worldApply w (.sstep sid (.inbound f) ok)).sys k = chanIdOf w.sys k
        ∧ logOf (worldApply w (.sstep sid (.inbound f) ok)).sys k = logOf w.sys k
        ∧ (worldApply w (.sstep sid (.inbound f) ok)).sys.views = w.sys.views
        ∧ (worldApply w (.sstep sid (.inbound f) ok)).outputs = w.outputs) := by
  have hstep : ∀ (sys2 : TwitterState),
      day19_task2_step sys2 s (.inbound f) ok = (sys2, { s with phase := .closed }, []) := by
    intro sys2
    rcases hf with hf | hf <;> subst hf
    · exact step_nonText ok hph
    · exact step_badJson ok hph
  refine ⟨hstep sys, fun e ok2 => step_closed e ok2 rfl, ?_, ?_⟩
  · intro w sid j hs hj
    rw [worldApply_sstep_some (.inbound f) ok hs]
    exact List.getElem?_set_ne (Ne.symm hj)
  · intro w sid k hs
    rw [worldApply_sstep_some (.inbound f) ok hs, hstep w.sys]
    refine ⟨?_, ?_, ?_, ?_⟩ <;>
      simp [hph, chanIdOf_dropRx, logOf_dropRx, views_dropRx]

/-- C7 witness: in the one-session world, a bad-JSON frame closes the session
while room 0's log, channel id and the counter are unchanged. -/
theorem C7_witness :
    day19_task2_step wEx.sys sessEx (.inbound .badJson) true
      = (wEx.sys, { sessEx with phase := .closed }, [])
    ∧ logOf (worldApply wEx (.sstep 0 (.inbound .badJson) true)).sys 0 = logOf wEx.sys 0
    ∧ (worldApply wEx (.sstep 0 (.inbound .badJson) true)).sys.views = wEx.sys.views := by
  have h := C7_protocol_violation_fatal_to_session_only wEx.sys sessEx .badJson true rfl
    (Or.inr rfl)
  have h4 := h.2.2.2 wEx 0 0 (by decide)
  exact ⟨h.1, h4.2.1, h4.2.2.1⟩

/-- C9: publishing from a live chat session never fails: in every reachable
service state, a Joined session's room channel has at least one live
receiver (its own subscription, counted by the rxInv invariant), so tokio's
Sender::send returns Ok and the `unwrap()` at the publish site never
panics — its error branch is unreachable. -/
theorem C9_publish_never_fails (w : World) (hw : Reachable w) (sid : Nat)
    (s : ChatSession) (hs : w.sessions[sid]? = some s) (hph : s.phase = .joined) :
    0 < rxCountOf w.sys s.room
    ∧ ∀ t : Tweet, broadcastSend w.sys s.room t = .ok (sendTweet w.sys s.room t) := by
  have hinv := rxInv_reachable hw s.room
  have hpos : 0 < joinedCount w s.room := by
    apply countP_pos_of_getElem _ _ sid s hs
    simp [hph]
  have h1 : 0 < rxCountOf w.sys s.room := lt_of_lt_of_le hpos hinv
  refine ⟨h1, fun t => ?_⟩
  simp only [broadcastSend]
  rw [if_neg (Nat.pos_iff_ne_zero.mp h1)]

/-- C9 witness: in the world reached by one join of room 0, the broadcast
send succeeds. -/
theorem C9_publish_never_fails_witness :
    0 < rxCountOf wEx.sys 0
    ∧ broadcastSend wEx.sys 0 { user := "u", message := "hi" }
      = .ok (sendTweet wEx.sys 0 { user := "u", message := "hi" }) := by
  have h := C9_publish_never_fails wEx
    (Reachable.step emptyWorld (.joinS 0 "u") Reachable.init) 0 sessEx (by decide) rfl
  exact ⟨h.1, h.2 _⟩

/-- C3: the view counter is incremented exactly once per (message,
subscriber) delivery — at receipt of a tweet from the subscription, before
the forward attempt, hence also when the forward to the remote fails — and
never by an inbound event (so not per publish) or a Lagged item; along any
reset-free trace the counter advances by exactly the number of successful
deliveries, so N total deliveries across any rooms and sessions starting
from a zero counter leave the reading at N (N below the usize modulus); and
a reset immediately followed by a read returns 0. -/
theorem C3_view_counter :
    (∀ (sys : TwitterState) (s : ChatSession) (ok : Bool) (t : Tweet),
      s.phase = .joined → (logOf sys s.room)[s.pos]? = some t →
      (day19_task2_step sys s .deliver ok).1.views = (sys.views + 1) % USIZE)
    ∧ (∀ (sys : TwitterState) (s : ChatSession) (f : InFrame) (ok : Bool),
      (day19_task2_step sys s (.inbound f) ok).1.views = sys.views)
    ∧ (∀ (sys : TwitterState) (s : ChatSession) (ok : Bool),
      (day19_task2_step sys s .lagged ok).1.views = sys.views)
    ∧ (∀ (w : World) (ops : List WOp), (∀ op ∈ ops, op ≠ WOp.resetV) →
      w.sys.views = 0 → countDeliveries w ops < USIZE →
      (applyOps w ops).sys.views = countDeliveries w ops)
    ∧ (∀ w : World, (worldApply w WOp.resetV).sys.views = 0) := by
  refine ⟨?_, ?_, ?_, ?_, ?_⟩
  · intro sys s ok t hph hp
    rw [step_views]
    rw [if_pos ⟨hph, rfl, (by rw [hp]; rfl)⟩]
  · intro sys s f ok
    rw [step_views]
    rw [if_neg (by rintro ⟨-, h, -⟩; exact Event.noConfusion h)]
  · intro sys s ok
    rw [step_views]
    rw [if_neg (by rintro ⟨-, h, -⟩; exact Event.noConfusion h)]
  · intro w ops hno h0 hlt
    have := applyOps_views ops w hno (by rw [h0]; norm_num [USIZE])
    rw [this, h0, Nat.zero_add, Nat.mod_eq_of_lt hlt]
  · intro w
    simp [worldApply, TwitterState.reset_views]

/-- C3 witness: in the room-7 scenario trace (no resets, two deliveries from
a zero counter) the final reading equals the delivery count; a reset on the
final state reads 0. -/
theorem C3_view_counter_witness :
    (applyOps emptyWorld scenarioOps).sys.views = countDeliveries emptyWorld scenarioOps
    ∧ (worldApply scenarioW WOp.resetV).sys.views = 0 :=
  ⟨C3_view_counter.2.2.2.1 emptyWorld scenarioOps (by decide) rfl (by decide),
   C3_view_counter.2.2.2.2 scenarioW⟩

/-- C8: every tweet delivered to a chat subscriber is forwarded to its remote
connection as the serde_json object with the author under "user" and the
text under "message"; concretely, with alice and bob both subscribed to room
7 and alice sending the frame carrying "hi", both sessions receive the frame
left brace "user":"alice","message":"hi" right brace and the view counter
rises by two, one per subscriber. -/
theorem C8_delivery_format :
    (∀ (sys : TwitterState) (s : ChatSession) (t : Tweet), s.phase = .joined →
      (logOf sys s.room)[s.pos]? = some t →
      (day19_task2_step sys s .deliver true).2.2 = [tweetToJson t])
    ∧ scenarioW.sys.views = 2
    ∧ scenarioW.outputs =
        [(0, "\x7b\"user\":\"alice\",\"message\":\"hi\"\x7d"),
         (1, "\x7b\"user\":\"alice\",\"message\":\"hi\"\x7d")] := by
  refine ⟨?_, by decide, by decide⟩
  intro sys s t hph hp
  rw [step_deliver_some hph hp]

/-- C8 witness: after alice's publish, the pending tweet is forwarded to her
session encoded exactly as tweetToJson. -/
theorem C8_delivery_format_witness :
    (day19_task2_step (applyOps emptyWorld (scenarioOps.take 3)).sys
        { room := 7, user := "alice", pos := 0, phase := .joined } .deliver true).2.2
      = [tweetToJson { user := "alice", message := "hi" }] :=
  C8_delivery_format.1 _ _ _ rfl (by decide)

/-- C5: the room registry maps each key to at most one broadcast channel:
the first join of an unseen key creates it (channel id sys.nextChan, empty
log, one receiver) and hands out a subscription from position 0; every later
join of the same key returns the same channel — same id and log, one more
receiver — with a fresh subscription starting at the end of its log, and
creates nothing; two successive joins of an unseen key yield one channel and
consume exactly one fresh id; joins and chat-loop iterations never replace
an existing channel; publishes to a different key never touch this room's
log; and a session's delivered frames are drawn only from its own room's
log. -/
theorem C5_room_registry (sys : TwitterState) (k : Nat) :
    (lookupRoom sys k = none →
      lookupRoom (sys.join k).1 k = some { chanId := sys.nextChan, log := [], rxCount := 1 }
      ∧ (sys.join k).2 = { room := k, pos := 0 })
    ∧ (∀ r : Room, lookupRoom sys k = some r →
      lookupRoom (sys.join k).1 k = some { r with rxCount := r.rxCount + 1 }
      ∧ (sys.join k).2 = { room := k, pos := r.log.length }
      ∧ (sys.join k).1.nextChan = sys.nextChan)
    ∧ (lookupRoom sys k = none →
      chanIdOf ((sys.join k).1.join k).1 k = some sys.nextChan
      ∧ ((sys.join k).1.join k).1.nextChan = sys.nextChan + 1)
    ∧ (∀ c : Nat, chanIdOf sys k = some c → ∀ k2 : Nat, chanIdOf (sys.join k2).1 k = some c)
    ∧ (∀ (s2 : ChatSession) (e : Event) (ok : Bool),
      chanIdOf (day19_task2_step sys s2 e ok).1 k = chanIdOf sys k)
    ∧ (∀ (k' : Nat) (t : Tweet), k' ≠ k → logOf (sendTweet sys k' t) k = logOf sys k)
    ∧ (∀ (B : ChatSession) (n : Nat), B.phase = .joined →
      (runDeliver sys B n).2.2
        = (((logOf sys B.room).drop B.pos).take n).map tweetToJson) := by
  refine ⟨?_, ?_, ?_, ?_,
    fun s2 e ok => step_chanId sys s2 e ok k,
    fun k' t h => logOf_sendTweet_ne t (Ne.symm h),
    fun B n hB => runDeliver_frames n sys B hB⟩
  · intro h
    exact ⟨(join_absent h).1, (join_absent h).2.1⟩
  · intro r h
    exact ⟨(join_present h).1, (join_present h).2.1, (join_present h).2.2.1⟩
  · intro h
    have h1 := (join_absent h).1
    have h2 := join_present h1
    constructor
    · simp [chanIdOf, h2.1]
    · rw [h2.2.2.1, (join_absent h).2.2.1]
  · intro c hc k2
    by_cases hk : k = k2
    · subst hk
      rcases hl : lookupRoom sys k with _ | r
      · rw [chanIdOf, hl] at hc
        simp at hc
      · rw [chanIdOf, hl] at hc
        simp at hc
        rw [chanIdOf, (join_present hl).1]
        simp [hc]
    · rw [chanIdOf, lookupRoom_join_ne hk]
      exact hc

/-- C5 witness: two successive joins of the unseen key 7 on the initial
state land on one channel (id 0) and consume exactly one fresh id. -/
theorem C5_room_registry_witness :
    chanIdOf ((emptyTS.join 7).1.join 7).1 7 = some emptyTS.nextChan
    ∧ ((emptyTS.join 7).1.join 7).1.nextChan = emptyTS.nextChan + 1 :=
  (C5_room_registry emptyTS 7).2.2.1 rfl

